import Mathlib

/-! Wire.h (teensy3): the TWBR clock shim and the TwoWire transfer buffers

A shallow embedding of `src/teensy3/Wire.h`.

* `TWBRemulation::operator=` and `TWBRemulation::operator int` are embedded
  from the source.  The preprocessor symbols `F_CPU` and `F_BUS` are explicit
  arguments.  The body left by the preprocessor is a list of register stores
  in which a store to `I2C0_F` still carries the name of its constant
  (`I2C_F_DIVn` is `Store.fDiv n`); the 8-bit codes behind those names and
  behind `I2C_C1_IICEN` live in the board header, which `Wire.h` only uses,
  and are a parameter (`Kinetis`).
* `TwoWire` is declared in `Wire.h` but its member functions are defined
  elsewhere; the state is taken from the declarations, the operations are
  modelled from the specification.  The inline members of `Wire.h` (`receive`,
  `send(int)` and the integer overloads of `write`) are embedded from the
  source, over the `read` and the `write(uint8_t)` they call.
-/

namespace Wire

/-- Capacity of each transfer buffer: `#define BUFFER_LENGTH 32`. -/
def BUFFER_LENGTH : Nat := 32

/-- The contents of an 8-bit register. -/
abbrev Byte := Fin 256

/-! ## The clock shim `TWBRemulation` -/

namespace TWBRemulation

/-- C integer division (truncation toward zero). -/
def cdiv (a b : Int) : Int := Int.tdiv a b

/-- The expression `((F_CPU / 400000) - 16) / 2` of the first condition. -/
def fastFormula (F_CPU : Int) : Int := cdiv (cdiv F_CPU 400000 - 16) 2

/-- The expression `((F_CPU / 100000) - 16) / 2` of the second condition. -/
def slowFormula (F_CPU : Int) : Int := cdiv (cdiv F_CPU 100000 - 16) 2

/-- The first condition of `operator=`: `val == 12 || val == ((F_CPU / 400000) - 16) / 2`. -/
def fastCond (F_CPU val : Int) : Bool :=
  val == 12 || val == fastFormula F_CPU

/-- The second condition of `operator=`: `val == 72 || val == ((F_CPU / 100000) - 16) / 2`. -/
def slowCond (F_CPU val : Int) : Bool :=
  val == 72 || val == slowFormula F_CPU

/-- The `#if F_BUS == ...` chain of the first branch of `operator=`: the `n` of the
constant `I2C_F_DIVn` stored to `I2C0_F`, or `none` when no `#elif` matches
(the chain has no `#else`). -/
def fastDiv (F_BUS : Nat) : Option Nat :=
  if F_BUS = 120000000 then some 288        -- 416 kHz
  else if F_BUS = 108000000 then some 256   -- 422 kHz
  else if F_BUS = 96000000 then some 240    -- 400 kHz
  else if F_BUS = 90000000 then some 224    -- 402 kHz
  else if F_BUS = 80000000 then some 192    -- 416 kHz
  else if F_BUS = 72000000 then some 192    -- 375 kHz
  else if F_BUS = 64000000 then some 160    -- 400 kHz
  else if F_BUS = 60000000 then some 144    -- 416 kHz
  else if F_BUS = 56000000 then some 144    -- 389 kHz
  else if F_BUS = 54000000 then some 128    -- 422 kHz
  else if F_BUS = 48000000 then some 112    -- 400 kHz
  else if F_BUS = 40000000 then some 96     -- 416 kHz
  else if F_BUS = 36000000 then some 96     -- 375 kHz
  else if F_BUS = 24000000 then some 64     -- 375 kHz
  else if F_BUS = 16000000 then some 40     -- 400 kHz
  else if F_BUS = 8000000 then some 20      -- 400 kHz
  else if F_BUS = 4000000 then some 20      -- 200 kHz
  else if F_BUS = 2000000 then some 20      -- 100 kHz
  else none

/-- The `#if F_BUS == ...` chain of the second branch of `operator=`. -/
def slowDiv (F_BUS : Nat) : Option Nat :=
  if F_BUS = 120000000 then some 1152       -- 104 kHz
  else if F_BUS = 108000000 then some 1024  -- 105 kHz
  else if F_BUS = 96000000 then some 960    -- 100 kHz
  else if F_BUS = 90000000 then some 896    -- 100 kHz
  else if F_BUS = 80000000 then some 768    -- 104 kHz
  else if F_BUS = 72000000 then some 640    -- 112 kHz
  else if F_BUS = 64000000 then some 640    -- 100 kHz
  else if F_BUS = 60000000 then some 576    -- 104 kHz
  else if F_BUS = 56000000 then some 512    -- 109 kHz
  else if F_BUS = 54000000 then some 512    -- 105 kHz
  else if F_BUS = 48000000 then some 480    -- 100 kHz
  else if F_BUS = 40000000 then some 384    -- 104 kHz
  else if F_BUS = 36000000 then some 320    -- 113 kHz
  else if F_BUS = 24000000 then some 240    -- 100 kHz
  else if F_BUS = 16000000 then some 160    -- 100 kHz
  else if F_BUS = 8000000 then some 80      -- 100 kHz
  else if F_BUS = 4000000 then some 40      -- 100 kHz
  else if F_BUS = 2000000 then some 20      -- 100 kHz
  else none

/-- The `#if F_BUS == ...` chain of `operator int`: the `n` of the constant
`I2C_F_DIVn` that `I2C0_F` is compared with, or `none` when no `#elif` matches.
The chain ends at 4 MHz. -/
def readDiv (F_BUS : Nat) : Option Nat :=
  if F_BUS = 120000000 then some 288
  else if F_BUS = 108000000 then some 256
  else if F_BUS = 96000000 then some 240
  else if F_BUS = 90000000 then some 224
  else if F_BUS = 80000000 then some 192
  else if F_BUS = 72000000 then some 192
  else if F_BUS = 64000000 then some 160
  else if F_BUS = 60000000 then some 144
  else if F_BUS = 56000000 then some 144
  else if F_BUS = 54000000 then some 128
  else if F_BUS = 48000000 then some 112
  else if F_BUS = 40000000 then some 96
  else if F_BUS = 36000000 then some 96
  else if F_BUS = 24000000 then some 64
  else if F_BUS = 16000000 then some 40
  else if F_BUS = 8000000 then some 20
  else if F_BUS = 4000000 then some 20
  else none

/-- The bus clocks that have an entry in the write table of `operator=`. -/
def supportedBus : List Nat :=
  [120000000, 108000000, 96000000, 90000000, 80000000, 72000000, 64000000,
   60000000, 56000000, 54000000, 48000000, 40000000, 36000000, 24000000,
   16000000, 8000000, 4000000, 2000000]

/-- One register store of the shim. -/
inductive Store where
  /-- The statement `I2C0_C1 = 0;` -/
  | c1Zero
  /-- The statement `I2C0_F = I2C_F_DIVn;` -/
  | fDiv (n : Nat)
  /-- The statement `I2C0_C1 = I2C_C1_IICEN;` -/
  | c1Iicen
  deriving DecidableEq, Repr

/-- The store to `I2C0_F` that a `#if` chain leaves: one store when an `#elif`
matched, nothing otherwise. -/
def fStore : Option Nat → List Store
  | some n => [Store.fDiv n]
  | none => []

/-- The register stores of `TWBRemulation::operator=(int val)`, in program order. -/
def operator_assign_stores (F_CPU : Int) (F_BUS : Nat) (val : Int) : List Store :=
  if fastCond F_CPU val then
    [Store.c1Zero] ++ fStore (fastDiv F_BUS) ++ [Store.c1Iicen]
  else if slowCond F_CPU val then
    [Store.c1Zero] ++ fStore (slowDiv F_BUS) ++ [Store.c1Iicen]
  else
    []

/-- The constants of the board header that the shim uses and `Wire.h` does not
define: the code of the enable bit and the code of each `I2C_F_DIVn`. -/
structure Kinetis where
  I2C_C1_IICEN : Byte
  I2C_F_DIV : Nat → Byte

/-- The two registers of the I2C peripheral that the shim touches. -/
structure Regs where
  I2C0_C1 : Byte
  I2C0_F : Byte
  deriving DecidableEq, Repr

/-- Effect of one store on the registers. -/
def Store.exec (k : Kinetis) (r : Regs) : Store → Regs
  | Store.c1Zero => { r with I2C0_C1 := 0 }
  | Store.fDiv n => { r with I2C0_F := k.I2C_F_DIV n }
  | Store.c1Iicen => { r with I2C0_C1 := k.I2C_C1_IICEN }

/-- Effect of a sequence of stores. -/
def execStores (k : Kinetis) (r : Regs) (ss : List Store) : Regs :=
  ss.foldl (Store.exec k) r

/-- The registers after `TWBRemulation::operator=(int val)`. -/
def operator_assign (k : Kinetis) (F_CPU : Int) (F_BUS : Nat) (val : Int) (r : Regs) : Regs :=
  execStores k r (operator_assign_stores F_CPU F_BUS val)

/-- The value returned by `TWBRemulation::operator int()`: 12 when `I2C0_F` holds the
constant of the chain's line for `F_BUS`, else 72. -/
def operator_int (k : Kinetis) (F_BUS : Nat) (r : Regs) : Int :=
  match readDiv F_BUS with
  | some n => if r.I2C0_F = k.I2C_F_DIV n then 12 else 72
  | none => 72

/-- Whether every store to `I2C0_F` in the sequence happens while `I2C0_C1` has the
enable bit clear (`I2C0_C1 & I2C_C1_IICEN == 0`). -/
def fStoresWhileDisabled (k : Kinetis) : Regs → List Store → Bool
  | _, [] => true
  | r, Store.fDiv n :: ss =>
      (r.I2C0_C1.val &&& k.I2C_C1_IICEN.val == 0) &&
        fStoresWhileDisabled k (Store.exec k r (Store.fDiv n)) ss
  | r, s :: ss => fStoresWhileDisabled k (Store.exec k r s) ss

/-- The divisor named by the last store to `I2C0_F` in a sequence of stores. -/
def programmedDiv : List Store → Option Nat
  | [] => none
  | Store.fDiv n :: ss => (programmedDiv ss).orElse (fun _ => some n)
  | _ :: ss => programmedDiv ss

/-- The bus speed in Hz that divisor `N` gives at bus clock `F_BUS`, as an exact
rational. -/
def busSpeed (F_BUS N : Nat) : ℚ := (F_BUS : ℚ) / (N : ℚ)

/-- Whether `x` is closer to `a` than to `b`. -/
def closerTo (x a b : ℚ) : Prop := |x - a| < |x - b|

instance (x a b : ℚ) : Decidable (closerTo x a b) :=
  inferInstanceAs (Decidable (|x - a| < |x - b|))

/-- The kHz figure written in the comment of each line of the first branch's chain
(`I2C0_F = I2C_F_DIV288; // 416 kHz` gives 416 at 120 MHz). -/
def fastComment (F_BUS : Nat) : Option Nat :=
  if F_BUS = 120000000 then some 416
  else if F_BUS = 108000000 then some 422
  else if F_BUS = 96000000 then some 400
  else if F_BUS = 90000000 then some 402
  else if F_BUS = 80000000 then some 416
  else if F_BUS = 72000000 then some 375
  else if F_BUS = 64000000 then some 400
  else if F_BUS = 60000000 then some 416
  else if F_BUS = 56000000 then some 389
  else if F_BUS = 54000000 then some 422
  else if F_BUS = 48000000 then some 400
  else if F_BUS = 40000000 then some 416
  else if F_BUS = 36000000 then some 375
  else if F_BUS = 24000000 then some 375
  else if F_BUS = 16000000 then some 400
  else if F_BUS = 8000000 then some 400
  else if F_BUS = 4000000 then some 200
  else if F_BUS = 2000000 then some 100
  else none

/-- The kHz figure written in the comment of each line of the second branch's
chain. -/
def slowComment (F_BUS : Nat) : Option Nat :=
  if F_BUS = 120000000 then some 104
  else if F_BUS = 108000000 then some 105
  else if F_BUS = 96000000 then some 100
  else if F_BUS = 90000000 then some 100
  else if F_BUS = 80000000 then some 104
  else if F_BUS = 72000000 then some 112
  else if F_BUS = 64000000 then some 100
  else if F_BUS = 60000000 then some 104
  else if F_BUS = 56000000 then some 109
  else if F_BUS = 54000000 then some 105
  else if F_BUS = 48000000 then some 100
  else if F_BUS = 40000000 then some 104
  else if F_BUS = 36000000 then some 113
  else if F_BUS = 24000000 then some 100
  else if F_BUS = 16000000 then some 100
  else if F_BUS = 8000000 then some 100
  else if F_BUS = 4000000 then some 100
  else if F_BUS = 2000000 then some 100
  else none

/-- Whether the exact speed `F_BUS / N` differs from a comment's figure of `kHz`
kilohertz by less than 1 kHz. -/
def commentAccurate (F_BUS N kHz : Nat) : Prop :=
  |busSpeed F_BUS N - (kHz : ℚ) * 1000| < 1000

instance (F_BUS N kHz : Nat) : Decidable (commentAccurate F_BUS N kHz) :=
  inferInstanceAs (Decidable (|busSpeed F_BUS N - (kHz : ℚ) * 1000| < 1000))

/-- A sample board header: the codes of the divider table of the Kinetis I2C
module (`ICR` field) for the divisors the shim names, enable bit `0x80`. -/
def sampleKinetis : Kinetis where
  I2C_C1_IICEN := 0x80
  I2C_F_DIV := fun n =>
    if n = 20 then 0x00 else if n = 40 then 0x07 else if n = 64 then 0x12
    else if n = 80 then 0x14 else if n = 96 then 0x19 else if n = 112 then 0x1A
    else if n = 128 then 0x17 else if n = 144 then 0x1C else if n = 160 then 0x1D
    else if n = 192 then 0x1E else if n = 224 then 0x22 else if n = 240 then 0x1F
    else if n = 256 then 0x23 else if n = 288 then 0x24 else if n = 320 then 0x25
    else if n = 384 then 0x26 else if n = 480 then 0x27 else if n = 512 then 0x2B
    else if n = 576 then 0x2C else if n = 640 then 0x2D else if n = 768 then 0x2E
    else if n = 896 then 0x32 else if n = 960 then 0x2F else if n = 1024 then 0x33
    else if n = 1152 then 0x34 else 0xFF


end TWBRemulation

/-! ## The bus instance `TwoWire`

`Wire.h` declares the state and the member functions of `TwoWire`; their bodies are
not part of it.  The state below follows the declarations, the operations follow
sections 4.1, 4.2 and 7 of the specification. -/

/-- The static data members of `class TwoWire` that hold the two transfer buffers
and the transaction flag (`rxBuffer`, `rxBufferIndex`, `rxBufferLength`, `txAddress`,
`txBuffer`, `txBufferIndex`, `txBufferLength`, `transmitting`; the last one is a
`uint8_t` used as a flag).  The field `txOverflow` is not a member declared in
`Wire.h`: it is modelled from the spec, which makes a discarded byte "observable via
the returned status code on the next `endTransmission`" (status 1). -/
structure TwoWire where
  rxBuffer : List Byte
  rxBufferIndex : Nat
  rxBufferLength : Nat
  txAddress : Byte
  txBuffer : List Byte
  txBufferIndex : Nat
  txBufferLength : Nat
  transmitting : Bool
  txOverflow : Bool
  deriving DecidableEq, Repr

namespace TwoWire

/-- Modelled from the spec: the body of the transmit buffer's `reset()` is not in
`Wire.h`; "`reset()` sets index/length to 0". -/
def txReset (s : TwoWire) : TwoWire :=
  { s with txBufferIndex := 0, txBufferLength := 0 }

/-- Modelled from the spec: the body of the transmit buffer's `append(byte)` is not in
`Wire.h`; it "stores at `length` and increments length if `length < capacity`, else
the byte is silently discarded". -/
def txAppend (s : TwoWire) (b : Byte) : TwoWire :=
  if s.txBufferLength < BUFFER_LENGTH then
    { s with txBuffer := s.txBuffer.set s.txBufferLength b,
             txBufferLength := s.txBufferLength + 1 }
  else
    { s with txOverflow := true }

/-- Modelled from the spec: the body of `TwoWire::beginTransmission(uint8_t)` is not in
`Wire.h`; it "resets the Transmit Buffer, records target address, sets
`transmitting = true`".  A new composition starts without a recorded overflow. -/
def beginTransmission (s : TwoWire) (address : Byte) : TwoWire :=
  { txReset s with txAddress := address, transmitting := true, txOverflow := false }

/-- Modelled from the spec: the body of `TwoWire::write(uint8_t)` is not in `Wire.h`;
it "appends to Transmit Buffer (subject to the capacity/overflow rule)", is "valid
only while `transmitting` is true; writes outside a transaction are dropped". -/
def write (s : TwoWire) (data : Byte) : TwoWire :=
  if s.transmitting then txAppend s data else s

/-- Modelled from the spec: the body of `TwoWire::write(const uint8_t *, size_t)` is
not in `Wire.h`; it appends the first `quantity` bytes of `data` one after the
other under the same rule as the single-byte `write`. -/
def write_n (s : TwoWire) (data : List Byte) (quantity : Nat) : TwoWire :=
  (data.take quantity).foldl write s

/-- What the hardware state machine reports at the end of a transfer: completion, a
NACK on the address, a NACK on a data byte, or another fault (arbitration loss, bus
fault, timeout). -/
inductive HwReport where
  | complete
  | addressNack
  | dataNack
  | fault
  deriving DecidableEq, Repr

/-- Modelled from the spec: the status codes of `endTransmission` for a hardware
report, "0 = success; ... 2 = address sent, NACK received; 3 = data sent, NACK
received; 4 = other hardware/timeout fault". -/
def HwReport.status : HwReport → Nat
  | HwReport.complete => 0
  | HwReport.addressNack => 2
  | HwReport.dataNack => 3
  | HwReport.fault => 4

/-- Modelled from the spec: the body of `TwoWire::endTransmission(uint8_t)` is not in
`Wire.h`.  It hands the buffered bytes to the hardware, whose report `hw` decides
the status code; status 1 reports a transmit buffer overflow during composition;
called with no prior `beginTransmission` it "returns success-equivalent ... (no
hardware action)"; it "always clears `transmitting` and resets the Transmit Buffer
on return, regardless of outcome".  The argument `sendStop` only decides whether the hardware
releases the bus, which is no part of the state. -/
def endTransmission (s : TwoWire) (_sendStop : Byte) (hw : HwReport) : TwoWire × Nat :=
  let status :=
    if !s.transmitting then 0
    else if s.txOverflow then 1
    else hw.status
  ({ txReset s with transmitting := false, txOverflow := false }, status)

/-- One call of `write` between `beginTransmission` and `endTransmission`: the
single-byte overload or the multi-byte overload. -/
inductive WriteCall where
  | byte (data : Byte)
  | bytes (data : List Byte) (quantity : Nat)
  deriving DecidableEq, Repr

/-- Effect of one `write` call. -/
def WriteCall.run (s : TwoWire) : WriteCall → TwoWire
  | WriteCall.byte data => write s data
  | WriteCall.bytes data quantity => write_n s data quantity

/-- Effect of a sequence of `write` calls. -/
def runWrites (s : TwoWire) (calls : List WriteCall) : TwoWire :=
  calls.foldl WriteCall.run s

/-- A state before the first transaction: 32 bytes of storage in each buffer, both
empty, not transmitting. -/
def initial : TwoWire where
  rxBuffer := List.replicate 32 0
  rxBufferIndex := 0
  rxBufferLength := 0
  txAddress := 0
  txBuffer := List.replicate 32 0
  txBufferIndex := 0
  txBufferLength := 0
  transmitting := false
  txOverflow := false

/-- Modelled from the spec: the hardware side of a read transaction is not in
`Wire.h`.  For an address, a byte count asked of the hardware and a `sendStop`
argument, the bytes the hardware delivers before the transfer ends (all of them, or
fewer after "a NACK, or a bus error"). -/
abbrev HwRead := Byte → Nat → Byte → List Byte

/-- Modelled from the spec: the body of `TwoWire::requestFrom(uint8_t, uint8_t, uint8_t)`
is not in `Wire.h`; it "issues a read transaction for `count` bytes (... requests
above capacity are clamped to capacity), ... then makes the delivered bytes
available through the Receive Buffer read cursor.  Returns the number of bytes
actually received".  The count is a natural number here, which covers the
`uint8_t` and the `int` overloads. -/
def requestFrom (s : TwoWire) (address : Byte) (quantity : Nat) (sendStop : Byte)
    (hw : HwRead) : TwoWire × Nat :=
  let count := if quantity > BUFFER_LENGTH then BUFFER_LENGTH else quantity
  let received := (hw address count sendStop).take count
  ({ s with rxBuffer := received ++ s.rxBuffer.drop received.length,
            rxBufferIndex := 0,
            rxBufferLength := received.length },
   received.length)

/-- Modelled from the spec: the body of `TwoWire::read()` is not in `Wire.h`; it
"returns the byte at the current read index and advances it, or signals exhaustion
when index ≥ length", the signal being "a sentinel (not a valid byte value)", here
-1, a value that the test `c < 0` of `receive` recognises. -/
def read (s : TwoWire) : TwoWire × Int :=
  if s.rxBufferIndex < s.rxBufferLength then
    ({ s with rxBufferIndex := s.rxBufferIndex + 1 },
     ((s.rxBuffer.getD s.rxBufferIndex 0).val : Int))
  else
    (s, -1)

/-- The conversion `(uint8_t)n` of an integer: reduction modulo 256. -/
def uint8 (n : Int) : Byte := ⟨(n % 256).toNat, by omega⟩

/-- The inline member `uint8_t receive(void)`:
`int c = read(); if (c < 0) return 0; return c;`, the virtual `read` being the
argument `rd`. -/
def receive (rd : TwoWire → TwoWire × Int) (s : TwoWire) : TwoWire × Byte :=
  let c := rd s
  if c.2 < 0 then (c.1, 0) else (c.1, uint8 c.2)

/-- The inline member `size_t write(unsigned long n) { return write((uint8_t)n); }`,
the virtual `write(uint8_t)` with its result being the argument `w`. -/
def write_unsigned_long (w : TwoWire → Byte → TwoWire × Nat) (s : TwoWire) (n : Int) :
    TwoWire × Nat :=
  w s (uint8 n)

/-- The inline member `size_t write(long n) { return write((uint8_t)n); }`. -/
def write_long (w : TwoWire → Byte → TwoWire × Nat) (s : TwoWire) (n : Int) :
    TwoWire × Nat :=
  w s (uint8 n)

/-- The inline member `size_t write(unsigned int n) { return write((uint8_t)n); }`. -/
def write_unsigned_int (w : TwoWire → Byte → TwoWire × Nat) (s : TwoWire) (n : Int) :
    TwoWire × Nat :=
  w s (uint8 n)

/-- The inline member `size_t write(int n) { return write((uint8_t)n); }`. -/
def write_int (w : TwoWire → Byte → TwoWire × Nat) (s : TwoWire) (n : Int) :
    TwoWire × Nat :=
  w s (uint8 n)

/-- The inline member `void send(int n) { write((uint8_t)n); }`: the result of
`write` is dropped. -/
def send_int (w : TwoWire → Byte → TwoWire × Nat) (s : TwoWire) (n : Int) : TwoWire :=
  (w s (uint8 n)).1

/-- A sample `write(uint8_t)` with a result: the modelled `write`, returning the
number of bytes it queued. -/
def sampleWrite (s : TwoWire) (data : Byte) : TwoWire × Nat :=
  (write s data, (write s data).txBufferLength - s.txBufferLength)

/-- A sample hardware: the device delivers the bytes 1, 2, 3, ... and ends the
transfer after five bytes. -/
def sampleHw : HwRead := fun _ count _ =>
  ((List.range count).map (fun i => uint8 (i + 1))).take 5

end TwoWire

namespace TWBRemulation

/-! ### Lemmas on the conditions -/

theorem cdiv_eq (a b : Int) (hb : 0 ≤ b) :
    cdiv a b = if 0 ≤ a then a / b else -((-a) / b) := by
  unfold cdiv
  split
  · next h => exact Int.tdiv_eq_ediv h hb
  · next h =>
    have h1 : a = -(-a) := by omega
    rw [h1, Int.neg_tdiv, Int.tdiv_eq_ediv (by omega) hb]
    simp

theorem fastCond_twelve (F_CPU : Int) : fastCond F_CPU 12 = true := by
  simp [fastCond]

theorem fastCond_fastFormula (F_CPU : Int) : fastCond F_CPU (fastFormula F_CPU) = true := by
  simp [fastCond]

theorem fastFormula_eq_72_iff (F_CPU : Int) :
    fastFormula F_CPU = 72 ↔ 64000000 ≤ F_CPU ∧ F_CPU < 64800000 := by
  unfold fastFormula
  rw [cdiv_eq _ 2 (by decide), cdiv_eq _ 400000 (by decide)]
  split_ifs <;> omega

theorem slowFormula_eq_12_iff (F_CPU : Int) :
    slowFormula F_CPU = 12 ↔ 4000000 ≤ F_CPU ∧ F_CPU < 4200000 := by
  unfold slowFormula
  rw [cdiv_eq _ 2 (by decide), cdiv_eq _ 100000 (by decide)]
  split_ifs <;> omega

theorem slowFormula_ne_fastFormula (F_CPU : Int) (h : 2000000 ≤ F_CPU) :
    slowFormula F_CPU ≠ fastFormula F_CPU := by
  unfold slowFormula fastFormula
  rw [cdiv_eq _ 2 (by decide), cdiv_eq _ 100000 (by decide), cdiv_eq _ 2 (by decide),
    cdiv_eq _ 400000 (by decide)]
  split_ifs <;> omega

theorem mem_supportedBus (F_BUS : Nat) :
    F_BUS ∈ supportedBus ↔
      F_BUS = 120000000 ∨ F_BUS = 108000000 ∨ F_BUS = 96000000 ∨ F_BUS = 90000000 ∨
      F_BUS = 80000000 ∨ F_BUS = 72000000 ∨ F_BUS = 64000000 ∨ F_BUS = 60000000 ∨
      F_BUS = 56000000 ∨ F_BUS = 54000000 ∨ F_BUS = 48000000 ∨ F_BUS = 40000000 ∨
      F_BUS = 36000000 ∨ F_BUS = 24000000 ∨ F_BUS = 16000000 ∨ F_BUS = 8000000 ∨
      F_BUS = 4000000 ∨ F_BUS = 2000000 := by
  simp [supportedBus]

/-- A supported bus clock has an entry in both branches of the write table. -/
theorem supported_entries (F_BUS : Nat) (h : F_BUS ∈ supportedBus) :
    ∃ nf ns, fastDiv F_BUS = some nf ∧ slowDiv F_BUS = some ns := by
  rw [mem_supportedBus] at h
  rcases h with h | h | h | h | h | h | h | h | h | h | h | h | h | h | h | h | h | h <;>
    subst h <;> simp [fastDiv, slowDiv]

/-- The read chain is the first write chain without its 2 MHz line. -/
theorem readDiv_eq (F_BUS : Nat) :
    readDiv F_BUS = if F_BUS = 2000000 then none else fastDiv F_BUS := by
  by_cases h : F_BUS = 2000000
  · subst h; rfl
  · simp [readDiv, fastDiv, h]

/-- The stores of a taken first branch. -/
theorem stores_of_fastCond (F_CPU : Int) (F_BUS : Nat) (val : Int)
    (h : fastCond F_CPU val = true) :
    operator_assign_stores F_CPU F_BUS val
      = [Store.c1Zero] ++ fStore (fastDiv F_BUS) ++ [Store.c1Iicen] := by
  simp [operator_assign_stores, h]

/-- The stores of a taken second branch. -/
theorem stores_of_slowCond (F_CPU : Int) (F_BUS : Nat) (val : Int)
    (hf : fastCond F_CPU val = false) (h : slowCond F_CPU val = true) :
    operator_assign_stores F_CPU F_BUS val
      = [Store.c1Zero] ++ fStore (slowDiv F_BUS) ++ [Store.c1Iicen] := by
  simp [operator_assign_stores, hf, h]

/-- Registers after the stores of a taken branch whose chain selected `I2C_F_DIVn`. -/
theorem exec_branch (k : Kinetis) (r : Regs) (n : Nat) :
    execStores k r ([Store.c1Zero] ++ fStore (some n) ++ [Store.c1Iicen])
      = { I2C0_C1 := k.I2C_C1_IICEN, I2C0_F := k.I2C_F_DIV n } := by
  simp [execStores, fStore, Store.exec]

/-- Registers after the stores of a taken branch whose chain selected nothing. -/
theorem exec_branch_none (k : Kinetis) (r : Regs) :
    execStores k r ([Store.c1Zero] ++ fStore none ++ [Store.c1Iicen])
      = { I2C0_C1 := k.I2C_C1_IICEN, I2C0_F := r.I2C0_F } := by
  simp [execStores, fStore, Store.exec]

/-- The sample header gives the two constants of every supported bus clock different
codes whenever they are different constants. -/
theorem sampleKinetis_distinct (F_BUS nf ns : Nat) (hf : fastDiv F_BUS = some nf)
    (hs : slowDiv F_BUS = some ns) (hne : nf ≠ ns) :
    sampleKinetis.I2C_F_DIV nf ≠ sampleKinetis.I2C_F_DIV ns := by
  by_cases h : F_BUS ∈ supportedBus
  · rw [mem_supportedBus] at h
    rcases h with h | h | h | h | h | h | h | h | h | h | h | h | h | h | h | h | h | h <;>
      subst h <;> simp [fastDiv, slowDiv] at hf hs <;> subst hf hs <;>
      first
        | exact absurd rfl hne
        | decide
  · rw [mem_supportedBus] at h
    simp only [not_or] at h
    obtain ⟨h1, h2, h3, h4, h5, h6, h7, h8, h9, h10, h11, h12, h13, h14, h15, h16, h17, h18⟩ := h
    simp [fastDiv, h1, h2, h3, h4, h5, h6, h7, h8, h9, h10, h11, h12, h13, h14, h15, h16,
      h17, h18] at hf

/-! ### C1: round trip of the fast constant -/

/-- C1, as stated, fails: at `F_BUS` = 2 MHz (which has an entry in the write table)
assigning 12 to TWBR and reading it back returns 72, not 12, because the chain of
`operator int` has no 2 MHz line. -/
theorem C1_roundtrip_12_fails_at_2MHz :
    2000000 ∈ supportedBus ∧
    operator_int sampleKinetis 2000000
      (operator_assign sampleKinetis 96000000 2000000 12 ⟨0, 0⟩) = 72 ∧
    operator_int sampleKinetis 2000000
      (operator_assign sampleKinetis 96000000 2000000 12 ⟨0, 0⟩) ≠ 12 := by
  decide

/-- C1, amended: for every bus clock with an entry in the write table, every core
clock, every header and every prior register state, assigning 12 to TWBR and then
reading TWBR returns 12, except at `F_BUS` = 2 MHz where it returns 72. -/
theorem C1_roundtrip_12 (k : Kinetis) (F_CPU : Int) (F_BUS : Nat) (r : Regs)
    (h : F_BUS ∈ supportedBus) :
    operator_int k F_BUS (operator_assign k F_CPU F_BUS 12 r)
      = if F_BUS = 2000000 then 72 else 12 := by
  obtain ⟨nf, ns, hf, -⟩ := supported_entries F_BUS h
  rw [operator_assign, stores_of_fastCond F_CPU F_BUS 12 (fastCond_twelve F_CPU), hf,
    exec_branch, operator_int, readDiv_eq]
  by_cases h2 : F_BUS = 2000000
  · simp [h2]
  · simp [h2, hf]

/-- Witness of `C1_roundtrip_12` at `F_BUS` = 48 MHz, `F_CPU` = 96 MHz. -/
theorem C1_roundtrip_12_witness :
    operator_int sampleKinetis 48000000
      (operator_assign sampleKinetis 96000000 48000000 12 ⟨0x80, 0x27⟩) = 12 :=
  C1_roundtrip_12 sampleKinetis 96000000 48000000 ⟨0x80, 0x27⟩ (by decide)

/-! ### C2: round trip of the slow constant -/

/-- C2, as stated, fails: with `F_CPU` = 64 MHz the value 72 equals
`((F_CPU / 400000) - 16) / 2`, so assigning 72 takes the first branch and a read
returns 12 (here at `F_BUS` = 16 MHz). -/
theorem C2_roundtrip_72_fails_at_F_CPU_64MHz :
    16000000 ∈ supportedBus ∧ fastFormula 64000000 = 72 ∧
    operator_assign_stores 64000000 16000000 72
      = [Store.c1Zero, Store.fDiv 40, Store.c1Iicen] ∧
    operator_int sampleKinetis 16000000
      (operator_assign sampleKinetis 64000000 16000000 72 ⟨0, 0⟩) = 12 := by
  decide

/-- C2, amended: for every bus clock with an entry in the write table, every core
clock outside [64.0 MHz, 64.8 MHz) (where 72 is not the fast formula value), every
header that gives the slow and the fast constant of that bus clock different codes
when they are different constants, and every prior register state, assigning 72 to
TWBR and then reading TWBR returns 72. -/
theorem C2_roundtrip_72 (k : Kinetis) (F_CPU : Int) (F_BUS : Nat) (r : Regs)
    (h : F_BUS ∈ supportedBus)
    (hcpu : ¬ (64000000 ≤ F_CPU ∧ F_CPU < 64800000))
    (hk : ∀ nf ns, fastDiv F_BUS = some nf → slowDiv F_BUS = some ns → nf ≠ ns →
      k.I2C_F_DIV nf ≠ k.I2C_F_DIV ns) :
    operator_int k F_BUS (operator_assign k F_CPU F_BUS 72 r) = 72 := by
  obtain ⟨nf, ns, hf, hs⟩ := supported_entries F_BUS h
  have hfc : fastCond F_CPU 72 = false := by
    have h72 : ¬ ((72 : Int) = fastFormula F_CPU) := fun e =>
      hcpu ((fastFormula_eq_72_iff F_CPU).1 e.symm)
    simp [fastCond, h72]
  have hsc : slowCond F_CPU 72 = true := by simp [slowCond]
  rw [operator_assign, stores_of_slowCond F_CPU F_BUS 72 hfc hsc, hs, exec_branch,
    operator_int, readDiv_eq]
  by_cases h2 : F_BUS = 2000000
  · simp [h2]
  · have hne : nf ≠ ns := by
      rw [mem_supportedBus] at h
      rcases h with h | h | h | h | h | h | h | h | h | h | h | h | h | h | h | h | h | h <;>
        subst h <;> simp [fastDiv, slowDiv] at hf hs <;> omega
    have := hk nf ns hf hs hne
    simp [h2, hf, Ne.symm this]

/-- Witness of `C2_roundtrip_72` at `F_BUS` = 48 MHz, `F_CPU` = 96 MHz. -/
theorem C2_roundtrip_72_witness :
    operator_int sampleKinetis 48000000
      (operator_assign sampleKinetis 96000000 48000000 72 ⟨0x80, 0x1A⟩) = 72 :=
  C2_roundtrip_72 sampleKinetis 96000000 48000000 ⟨0x80, 0x1A⟩ (by decide) (by decide)
    (sampleKinetis_distinct 48000000)

/-! ### C3: disable, reconfigure, enable -/

/-- C3: for every supported bus clock and every value that `operator=` recognises
(either branch), the assignment performs exactly three register stores in this
order: `I2C0_C1 = 0`, `I2C0_F =` the table entry of the branch taken,
`I2C0_C1 = I2C_C1_IICEN`; the store to `I2C0_F` happens while `I2C0_C1` has the
enable bit clear, and afterwards `I2C0_C1` equals `I2C_C1_IICEN` whatever it held
before. -/
theorem C3_disable_reconfigure_enable (k : Kinetis) (F_CPU : Int) (F_BUS : Nat) (val : Int)
    (r : Regs) (h : F_BUS ∈ supportedBus)
    (hval : fastCond F_CPU val = true ∨ slowCond F_CPU val = true) :
    ∃ n, (if fastCond F_CPU val then fastDiv F_BUS else slowDiv F_BUS) = some n ∧
      operator_assign_stores F_CPU F_BUS val
        = [Store.c1Zero, Store.fDiv n, Store.c1Iicen] ∧
      fStoresWhileDisabled k r (operator_assign_stores F_CPU F_BUS val) = true ∧
      (operator_assign k F_CPU F_BUS val r).I2C0_C1 = k.I2C_C1_IICEN ∧
      (operator_assign k F_CPU F_BUS val r).I2C0_F = k.I2C_F_DIV n := by
  obtain ⟨nf, ns, hf, hs⟩ := supported_entries F_BUS h
  by_cases hfc : fastCond F_CPU val = true
  · refine ⟨nf, by simp [hfc, hf], ?_, ?_, ?_, ?_⟩
    · simp [stores_of_fastCond F_CPU F_BUS val hfc, hf, fStore]
    · simp [stores_of_fastCond F_CPU F_BUS val hfc, hf, fStore, fStoresWhileDisabled,
        Store.exec]
    · rw [operator_assign, stores_of_fastCond F_CPU F_BUS val hfc, hf, exec_branch]
    · rw [operator_assign, stores_of_fastCond F_CPU F_BUS val hfc, hf, exec_branch]
  · have hfc2 : fastCond F_CPU val = false := by simpa using hfc
    have hsc : slowCond F_CPU val = true := by
      rcases hval with h1 | h1
      · exact absurd h1 hfc
      · exact h1
    refine ⟨ns, by simp [hfc2, hs], ?_, ?_, ?_, ?_⟩
    · simp [stores_of_slowCond F_CPU F_BUS val hfc2 hsc, hs, fStore]
    · simp [stores_of_slowCond F_CPU F_BUS val hfc2 hsc, hs, fStore, fStoresWhileDisabled,
        Store.exec]
    · rw [operator_assign, stores_of_slowCond F_CPU F_BUS val hfc2 hsc, hs, exec_branch]
    · rw [operator_assign, stores_of_slowCond F_CPU F_BUS val hfc2 hsc, hs, exec_branch]

/-- Witness of `C3_disable_reconfigure_enable`: `TWBR = 72` at `F_BUS` = 36 MHz,
`F_CPU` = 72 MHz, from a state with the peripheral enabled. -/
theorem C3_disable_reconfigure_enable_witness :
    ∃ n, (if fastCond 72000000 72 then fastDiv 36000000 else slowDiv 36000000) = some n ∧
      operator_assign_stores 72000000 36000000 72
        = [Store.c1Zero, Store.fDiv n, Store.c1Iicen] ∧
      fStoresWhileDisabled sampleKinetis ⟨0x80, 0x19⟩
        (operator_assign_stores 72000000 36000000 72) = true ∧
      (operator_assign sampleKinetis 72000000 36000000 72 ⟨0x80, 0x19⟩).I2C0_C1
        = sampleKinetis.I2C_C1_IICEN ∧
      (operator_assign sampleKinetis 72000000 36000000 72 ⟨0x80, 0x19⟩).I2C0_F
        = sampleKinetis.I2C_F_DIV n :=
  C3_disable_reconfigure_enable sampleKinetis 72000000 36000000 72 ⟨0x80, 0x19⟩
    (by decide) (Or.inr (by decide))

/-! ### C4: fast classification -/

/-- C4: for every core clock and every supported bus clock, assigning to TWBR either
12 or `((F_CPU / 400000) - 16) / 2` leaves `I2C0_F` equal to the first-branch
(400 kHz class) table entry for that bus clock. -/
theorem C4_fast_classification (k : Kinetis) (F_CPU : Int) (F_BUS : Nat) (val : Int)
    (r : Regs) (h : F_BUS ∈ supportedBus) (hval : val = 12 ∨ val = fastFormula F_CPU) :
    ∃ n, fastDiv F_BUS = some n ∧
      (operator_assign k F_CPU F_BUS val r).I2C0_F = k.I2C_F_DIV n := by
  obtain ⟨nf, ns, hf, -⟩ := supported_entries F_BUS h
  have hfc : fastCond F_CPU val = true := by
    rcases hval with e | e
    · rw [e]; exact fastCond_twelve F_CPU
    · rw [e]; exact fastCond_fastFormula F_CPU
  refine ⟨nf, hf, ?_⟩
  rw [operator_assign, stores_of_fastCond F_CPU F_BUS val hfc, hf, exec_branch]

/-- Witness of `C4_fast_classification`: the formula value 112 at `F_CPU` = 96 MHz,
`F_BUS` = 48 MHz. -/
theorem C4_fast_classification_witness :
    ∃ n, fastDiv 48000000 = some n ∧
      (operator_assign sampleKinetis 96000000 48000000 112 ⟨0, 0⟩).I2C0_F
        = sampleKinetis.I2C_F_DIV n :=
  C4_fast_classification sampleKinetis 96000000 48000000 112 ⟨0, 0⟩ (by decide)
    (Or.inr (by decide))

/-! ### C5: slow classification -/

/-- C5, as stated, fails: at `F_CPU` = 4 MHz (at least 2 MHz) the formula value
`((F_CPU / 100000) - 16) / 2` is 12, which the first condition takes, so at
`F_BUS` = 4 MHz the assignment leaves `I2C0_F` at the first-branch entry
`I2C_F_DIV20`, not at the second-branch entry `I2C_F_DIV40`; and at
`F_CPU` = 64 MHz the constant 72 equals the fast formula value and is taken by the
first branch as well. -/
theorem C5_slow_classification_fails :
    4000000 ∈ supportedBus ∧ slowFormula 4000000 = 12 ∧
    slowDiv 4000000 = some 40 ∧
    (operator_assign sampleKinetis 4000000 4000000 (slowFormula 4000000) ⟨0, 0x1F⟩).I2C0_F
      = sampleKinetis.I2C_F_DIV 20 ∧
    (operator_assign sampleKinetis 4000000 4000000 (slowFormula 4000000) ⟨0, 0x1F⟩).I2C0_F
      ≠ sampleKinetis.I2C_F_DIV 40 ∧
    (operator_assign sampleKinetis 64000000 4000000 72 ⟨0, 0x1F⟩).I2C0_F
      ≠ sampleKinetis.I2C_F_DIV 40 := by
  decide

/-- C5, amended: for every core clock of at least 2 MHz and every supported bus
clock, assigning 72 when `F_CPU` is outside [64.0 MHz, 64.8 MHz), or assigning
`((F_CPU / 100000) - 16) / 2` when `F_CPU` is outside [4.0 MHz, 4.2 MHz), leaves
`I2C0_F` equal to the second-branch (100 kHz class) table entry for that bus clock. -/
theorem C5_slow_classification (k : Kinetis) (F_CPU : Int) (F_BUS : Nat) (r : Regs)
    (h : F_BUS ∈ supportedBus) (hcpu : 2000000 ≤ F_CPU) :
    ∃ n, slowDiv F_BUS = some n ∧
      (¬ (64000000 ≤ F_CPU ∧ F_CPU < 64800000) →
        (operator_assign k F_CPU F_BUS 72 r).I2C0_F = k.I2C_F_DIV n) ∧
      (¬ (4000000 ≤ F_CPU ∧ F_CPU < 4200000) →
        (operator_assign k F_CPU F_BUS (slowFormula F_CPU) r).I2C0_F = k.I2C_F_DIV n) := by
  obtain ⟨nf, ns, -, hs⟩ := supported_entries F_BUS h
  refine ⟨ns, hs, ?_, ?_⟩
  · intro h64
    have h72 : ¬ ((72 : Int) = fastFormula F_CPU) := fun e =>
      h64 ((fastFormula_eq_72_iff F_CPU).1 e.symm)
    have hfc : fastCond F_CPU 72 = false := by simp [fastCond, h72]
    have hsc : slowCond F_CPU 72 = true := by simp [slowCond]
    rw [operator_assign, stores_of_slowCond F_CPU F_BUS 72 hfc hsc, hs, exec_branch]
  · intro h4
    have h12 : ¬ (slowFormula F_CPU = 12) := fun e =>
      h4 ((slowFormula_eq_12_iff F_CPU).1 e)
    have hfc : fastCond F_CPU (slowFormula F_CPU) = false := by
      simp [fastCond, h12, slowFormula_ne_fastFormula F_CPU hcpu]
    have hsc : slowCond F_CPU (slowFormula F_CPU) = true := by simp [slowCond]
    rw [operator_assign, stores_of_slowCond F_CPU F_BUS _ hfc hsc, hs, exec_branch]

/-- Witness of `C5_slow_classification` at `F_CPU` = 96 MHz, `F_BUS` = 48 MHz. -/
theorem C5_slow_classification_witness :
    ∃ n, slowDiv 48000000 = some n ∧
      (operator_assign sampleKinetis 96000000 48000000 72 ⟨0, 0⟩).I2C0_F
        = sampleKinetis.I2C_F_DIV n ∧
      (operator_assign sampleKinetis 96000000 48000000 (slowFormula 96000000) ⟨0, 0⟩).I2C0_F
        = sampleKinetis.I2C_F_DIV n :=
  match C5_slow_classification sampleKinetis 96000000 48000000 ⟨0, 0⟩ (by decide) (by decide) with
  | ⟨n, hn, h72, hformula⟩ => ⟨n, hn, h72 (by decide), hformula (by decide)⟩

/-! ### C6: the read and its default -/

/-- C6, as stated, fails: at `F_BUS` = 2 MHz, with `I2C0_F` equal to the entry
`I2C_F_DIV20` that assigning 12 programs for that bus clock, reading TWBR returns
72, not 12. -/
theorem C6_read_fails_at_2MHz :
    (operator_assign sampleKinetis 96000000 2000000 12 ⟨0x80, 0x2D⟩).I2C0_F
      = sampleKinetis.I2C_F_DIV 20 ∧
    operator_int sampleKinetis 2000000 ⟨0x80, sampleKinetis.I2C_F_DIV 20⟩ = 72 ∧
    operator_int sampleKinetis 2000000 ⟨0x80, sampleKinetis.I2C_F_DIV 20⟩ ≠ 12 := by
  decide

/-- C6, amended: for every bus clock frequency and every value of `I2C0_F`, reading
TWBR returns either 12 or 72; for every bus clock other than 2 MHz it returns 12
exactly when `I2C0_F` equals the first-branch table entry for that bus clock (the
one that assigning 12 programs) and 72 for every other divider value; at 2 MHz it
returns 72 for every divider value. -/
theorem C6_read_default (k : Kinetis) (F_BUS : Nat) (r : Regs) :
    (operator_int k F_BUS r = 12 ∨ operator_int k F_BUS r = 72) ∧
    (F_BUS ≠ 2000000 →
      (operator_int k F_BUS r = 12 ↔
        ∃ n, fastDiv F_BUS = some n ∧ r.I2C0_F = k.I2C_F_DIV n)) ∧
    (F_BUS ≠ 2000000 →
      (¬ (∃ n, fastDiv F_BUS = some n ∧ r.I2C0_F = k.I2C_F_DIV n) →
        operator_int k F_BUS r = 72)) ∧
    (F_BUS = 2000000 → operator_int k F_BUS r = 72) := by
  have key : ∀ (o : Option Nat),
      (match o with
        | some n => if r.I2C0_F = k.I2C_F_DIV n then (12 : Int) else 72
        | none => 72) = 12 ↔ ∃ n, o = some n ∧ r.I2C0_F = k.I2C_F_DIV n := by
    intro o
    cases o with
    | none => simp
    | some m =>
      by_cases e : r.I2C0_F = k.I2C_F_DIV m
      · simp [e]
      · simp [e]
  have two : ∀ (o : Option Nat),
      (match o with
        | some n => if r.I2C0_F = k.I2C_F_DIV n then (12 : Int) else 72
        | none => 72) = 12 ∨
      (match o with
        | some n => if r.I2C0_F = k.I2C_F_DIV n then (12 : Int) else 72
        | none => 72) = 72 := by
    intro o
    cases o with
    | none => simp
    | some m =>
      by_cases e : r.I2C0_F = k.I2C_F_DIV m
      · simp [e]
      · simp [e]
  refine ⟨two _, ?_, ?_, ?_⟩
  · intro h2
    unfold operator_int
    rw [readDiv_eq, if_neg h2]
    exact key _
  · intro h2 hno
    unfold operator_int
    rw [readDiv_eq, if_neg h2]
    rcases two (fastDiv F_BUS) with e | e
    · exact absurd ((key _).1 e) hno
    · exact e
  · intro h2
    subst h2
    rfl

/-- Witness of `C6_read_default` at `F_BUS` = 48 MHz with a divider value that is in
neither table. -/
theorem C6_read_default_witness :
    operator_int sampleKinetis 48000000 ⟨0x80, 0x05⟩ = 72 :=
  (C6_read_default sampleKinetis 48000000 ⟨0x80, 0x05⟩).2.2.1 (by decide) (by
    rintro ⟨n, hn, e⟩
    have e1 : n = 112 := by simpa [fastDiv] using hn.symm
    subst e1
    exact absurd e (by decide))

/-! ### C7: speed class of the selected entry -/

/-- C7, as stated, fails: at `F_BUS` = 4 MHz assigning 12 programs `I2C_F_DIV20`,
200 kHz, which is closer to 100 kHz than to 400 kHz, and at 2 MHz it programs
`I2C_F_DIV20`, 100 kHz; and at `F_CPU` = 64 MHz assigning 72 programs the
first-branch entry, at `F_BUS` = 64 MHz `I2C_F_DIV160`, 400 kHz. -/
theorem C7_speed_class_fails :
    (4000000 ∈ supportedBus ∧
      programmedDiv (operator_assign_stores 48000000 4000000 12) = some 20 ∧
      busSpeed 4000000 20 = 200000 ∧
      ¬ closerTo (busSpeed 4000000 20) 400000 100000) ∧
    (2000000 ∈ supportedBus ∧
      programmedDiv (operator_assign_stores 48000000 2000000 12) = some 20 ∧
      busSpeed 2000000 20 = 100000 ∧
      ¬ closerTo (busSpeed 2000000 20) 400000 100000) ∧
    (64000000 ∈ supportedBus ∧
      programmedDiv (operator_assign_stores 64000000 64000000 72) = some 160 ∧
      busSpeed 64000000 160 = 400000 ∧
      ¬ closerTo (busSpeed 64000000 160) 100000 400000) := by
  refine ⟨⟨by decide, by decide, ?_, ?_⟩, ⟨by decide, by decide, ?_, ?_⟩,
    ⟨by decide, by decide, ?_, ?_⟩⟩
  · norm_num [busSpeed]
  · norm_num [closerTo, busSpeed, abs_lt, lt_abs]
  · norm_num [busSpeed]
  · norm_num [closerTo, busSpeed, abs_lt, lt_abs]
  · norm_num [busSpeed]
  · norm_num [closerTo, busSpeed, abs_lt, lt_abs]

/-- C7, amended: for every supported bus clock of at least 8 MHz and every core
clock, the bus speed `F_BUS / N` of the constant `I2C_F_DIVN` programmed by
assigning 12 is closer to 400 kHz than to 100 kHz; and for every supported bus
clock and every core clock outside [64.0 MHz, 64.8 MHz), the bus speed `F_BUS / N`
programmed by assigning 72 is closer to 100 kHz than to 400 kHz (exact rational
arithmetic). -/
theorem C7_speed_class (F_CPU : Int) (F_BUS : Nat) (h : F_BUS ∈ supportedBus) :
    (8000000 ≤ F_BUS →
      ∃ N, programmedDiv (operator_assign_stores F_CPU F_BUS 12) = some N ∧
        closerTo (busSpeed F_BUS N) 400000 100000) ∧
    (¬ (64000000 ≤ F_CPU ∧ F_CPU < 64800000) →
      ∃ N, programmedDiv (operator_assign_stores F_CPU F_BUS 72) = some N ∧
        closerTo (busSpeed F_BUS N) 100000 400000) := by
  have hprog : ∀ n, programmedDiv ([Store.c1Zero] ++ fStore (some n) ++ [Store.c1Iicen])
      = some n := by
    intro n
    simp [fStore, programmedDiv]
  constructor
  · intro h8
    rw [stores_of_fastCond F_CPU F_BUS 12 (fastCond_twelve F_CPU)]
    rw [mem_supportedBus] at h
    rcases h with h | h | h | h | h | h | h | h | h | h | h | h | h | h | h | h | h | h <;>
      subst h <;>
      first
        | omega
        | exact ⟨_, hprog _, by norm_num [closerTo, busSpeed, abs_lt, lt_abs]⟩
  · intro h64
    have h72 : ¬ ((72 : Int) = fastFormula F_CPU) := fun e =>
      h64 ((fastFormula_eq_72_iff F_CPU).1 e.symm)
    have hfc : fastCond F_CPU 72 = false := by simp [fastCond, h72]
    have hsc : slowCond F_CPU 72 = true := by simp [slowCond]
    rw [stores_of_slowCond F_CPU F_BUS 72 hfc hsc]
    rw [mem_supportedBus] at h
    rcases h with h | h | h | h | h | h | h | h | h | h | h | h | h | h | h | h | h | h <;>
      subst h <;>
      exact ⟨_, hprog _, by norm_num [closerTo, busSpeed, abs_lt, lt_abs]⟩

/-- Witness of `C7_speed_class` at `F_BUS` = 36 MHz, `F_CPU` = 72 MHz. -/
theorem C7_speed_class_witness :
    (∃ N, programmedDiv (operator_assign_stores 72000000 36000000 12) = some N ∧
        closerTo (busSpeed 36000000 N) 400000 100000) ∧
    (∃ N, programmedDiv (operator_assign_stores 72000000 36000000 72) = some N ∧
        closerTo (busSpeed 36000000 N) 100000 400000) :=
  ⟨(C7_speed_class 72000000 36000000 (by decide)).1 (by decide),
   (C7_speed_class 72000000 36000000 (by decide)).2 (by decide)⟩

/-! ### C8: bus clocks without a table entry -/

/-- C8, as stated, fails: `F_BUS` = 1 MHz has no table entry, yet the shim is
defined for it: assigning 12 performs the stores `I2C0_C1 = 0` and
`I2C0_C1 = I2C_C1_IICEN`, and a read returns 72. No branch of the `#if` chains
raises an error. -/
theorem C8_unsupported_bus_runs :
    1000000 ∉ supportedBus ∧ fastDiv 1000000 = none ∧ slowDiv 1000000 = none ∧
    readDiv 1000000 = none ∧
    operator_assign_stores 16000000 1000000 12 = [Store.c1Zero, Store.c1Iicen] ∧
    operator_assign sampleKinetis 16000000 1000000 12 ⟨0, 0x1F⟩ = ⟨0x80, 0x1F⟩ ∧
    operator_int sampleKinetis 1000000 ⟨0x80, 0x1F⟩ = 72 := by
  decide

/-- C8, amended: for every bus clock frequency that has no entry in the table the
shim of `Wire.h` raises no configuration error and has this runtime behaviour: an
assignment of a recognised value performs exactly the two stores `I2C0_C1 = 0`,
`I2C0_C1 = I2C_C1_IICEN`, an assignment of any other value performs none, `I2C0_F`
is left unchanged, and a read returns 72. -/
theorem C8_unsupported_bus (k : Kinetis) (F_CPU : Int) (F_BUS : Nat) (val : Int) (r : Regs)
    (h : F_BUS ∉ supportedBus) :
    operator_assign_stores F_CPU F_BUS val
      = (if fastCond F_CPU val || slowCond F_CPU val
          then [Store.c1Zero, Store.c1Iicen] else []) ∧
    (operator_assign k F_CPU F_BUS val r).I2C0_F = r.I2C0_F ∧
    operator_int k F_BUS r = 72 := by
  rw [mem_supportedBus] at h
  simp only [not_or] at h
  obtain ⟨h1, h2, h3, h4, h5, h6, h7, h8, h9, h10, h11, h12, h13, h14, h15, h16, h17, h18⟩ := h
  have hf : fastDiv F_BUS = none := by
    simp [fastDiv, h1, h2, h3, h4, h5, h6, h7, h8, h9, h10, h11, h12, h13, h14, h15, h16,
      h17, h18]
  have hs : slowDiv F_BUS = none := by
    simp [slowDiv, h1, h2, h3, h4, h5, h6, h7, h8, h9, h10, h11, h12, h13, h14, h15, h16,
      h17, h18]
  have hr : readDiv F_BUS = none := by
    simp [readDiv, h1, h2, h3, h4, h5, h6, h7, h8, h9, h10, h11, h12, h13, h14, h15, h16,
      h17]
  have hst : operator_assign_stores F_CPU F_BUS val
      = (if fastCond F_CPU val || slowCond F_CPU val
          then [Store.c1Zero, Store.c1Iicen] else []) := by
    unfold operator_assign_stores
    rw [hf, hs]
    cases fastCond F_CPU val <;> cases slowCond F_CPU val <;> simp [fStore]
  refine ⟨hst, ?_, ?_⟩
  · rw [operator_assign, hst]
    cases fastCond F_CPU val <;> cases slowCond F_CPU val <;>
      simp [execStores, Store.exec]
  · simp [operator_int, hr]

/-- Witness of `C8_unsupported_bus` at `F_BUS` = 30 MHz. -/
theorem C8_unsupported_bus_witness :
    operator_assign_stores 96000000 30000000 72
      = (if fastCond 96000000 72 || slowCond 96000000 72
          then [Store.c1Zero, Store.c1Iicen] else []) ∧
    (operator_assign sampleKinetis 96000000 30000000 72 ⟨0x80, 0x27⟩).I2C0_F = 0x27 ∧
    operator_int sampleKinetis 30000000 ⟨0x80, 0x27⟩ = 72 :=
  C8_unsupported_bus sampleKinetis 96000000 30000000 72 ⟨0x80, 0x27⟩ (by decide)

end TWBRemulation

namespace TwoWire

/-! ### C9: transmit capacity bound -/

/-- The buffer invariant: the fill length is within the capacity. -/
theorem txAppend_le (s : TwoWire) (b : Byte) (h : s.txBufferLength ≤ BUFFER_LENGTH) :
    (txAppend s b).txBufferLength ≤ BUFFER_LENGTH := by
  unfold txAppend
  split
  · next hlt => simpa using hlt
  · exact h

theorem txAppend_storage (s : TwoWire) (b : Byte) :
    (txAppend s b).txBuffer.length = s.txBuffer.length := by
  unfold txAppend
  split <;> simp

theorem write_le (s : TwoWire) (b : Byte) (h : s.txBufferLength ≤ BUFFER_LENGTH) :
    (write s b).txBufferLength ≤ BUFFER_LENGTH := by
  unfold write
  split
  · exact txAppend_le s b h
  · exact h

theorem write_storage (s : TwoWire) (b : Byte) :
    (write s b).txBuffer.length = s.txBuffer.length := by
  unfold write
  split
  · exact txAppend_storage s b
  · rfl

theorem foldl_write_inv (bs : List Byte) (s : TwoWire)
    (h : s.txBufferLength ≤ BUFFER_LENGTH) :
    (bs.foldl write s).txBufferLength ≤ BUFFER_LENGTH ∧
    (bs.foldl write s).txBuffer.length = s.txBuffer.length := by
  induction bs generalizing s with
  | nil => exact ⟨h, rfl⟩
  | cons b bs ih =>
    have := ih (write s b) (write_le s b h)
    simp only [List.foldl_cons]
    exact ⟨this.1, this.2.trans (write_storage s b)⟩

theorem run_inv (c : WriteCall) (s : TwoWire) (h : s.txBufferLength ≤ BUFFER_LENGTH) :
    (WriteCall.run s c).txBufferLength ≤ BUFFER_LENGTH ∧
    (WriteCall.run s c).txBuffer.length = s.txBuffer.length := by
  cases c with
  | byte data => exact ⟨write_le s data h, write_storage s data⟩
  | bytes data quantity => exact foldl_write_inv (data.take quantity) s h

theorem runWrites_inv (calls : List WriteCall) (s : TwoWire)
    (h : s.txBufferLength ≤ BUFFER_LENGTH) :
    (runWrites s calls).txBufferLength ≤ BUFFER_LENGTH ∧
    (runWrites s calls).txBuffer.length = s.txBuffer.length := by
  induction calls generalizing s with
  | nil => exact ⟨h, rfl⟩
  | cons c cs ih =>
    have hc := run_inv c s h
    have := ih (WriteCall.run s c) hc.1
    simp only [runWrites, List.foldl_cons] at this ⊢
    exact ⟨this.1, this.2.trans hc.2⟩

/-- C9: for every sequence of `TwoWire::write` calls (single-byte or multi-byte) made
after `beginTransmission`, from every prior state, the transmit buffer length
`txBufferLength` does not exceed `BUFFER_LENGTH` (32), however many bytes were
offered, and the storage keeps its size. -/
theorem C9_transmit_capacity (s : TwoWire) (address : Byte) (calls : List WriteCall) :
    (runWrites (beginTransmission s address) calls).txBufferLength ≤ BUFFER_LENGTH ∧
    BUFFER_LENGTH = 32 ∧
    (runWrites (beginTransmission s address) calls).txBuffer.length = s.txBuffer.length := by
  have h0 : (beginTransmission s address).txBufferLength ≤ BUFFER_LENGTH := by
    simp [beginTransmission, txReset]
  have := runWrites_inv calls (beginTransmission s address) h0
  exact ⟨this.1, rfl, this.2⟩

/-! ### C10: `endTransmission` resets the transaction -/

/-- C10: for every state, every `sendStop` argument and every hardware report (so
whatever status code is returned), after `TwoWire::endTransmission` the
`transmitting` flag is false and the transmit buffer is empty (index and length 0),
and a following `beginTransmission` starts from zero queued bytes. -/
theorem C10_endTransmission_resets (s : TwoWire) (sendStop : Byte) (hw : HwReport)
    (address : Byte) :
    (endTransmission s sendStop hw).1.transmitting = false ∧
    (endTransmission s sendStop hw).1.txBufferLength = 0 ∧
    (endTransmission s sendStop hw).1.txBufferIndex = 0 ∧
    (beginTransmission (endTransmission s sendStop hw).1 address).txBufferLength = 0 := by
  simp [endTransmission, beginTransmission, txReset]

/-! ### C11: `requestFrom` clamps the count -/

/-- The number of bytes `requestFrom` returns is within the capacity and is the new
fill length of the receive buffer. -/
theorem requestFrom_le (s : TwoWire) (address : Byte) (quantity : Nat) (sendStop : Byte)
    (hw : HwRead) :
    (requestFrom s address quantity sendStop hw).2 ≤ BUFFER_LENGTH ∧
    (requestFrom s address quantity sendStop hw).1.rxBufferLength
      = (requestFrom s address quantity sendStop hw).2 := by
  refine ⟨?_, rfl⟩
  simp only [requestFrom, List.length_take]
  split <;> omega

/-- C11: for every state, address, `sendStop` argument and hardware, and every
requested count `n` greater than `BUFFER_LENGTH` (32), `requestFrom(addr, n, sendStop)`
has the same result and leaves the same state as `requestFrom(addr, 32, sendStop)`. -/
theorem C11_requestFrom_clamps (s : TwoWire) (address : Byte) (n : Nat) (sendStop : Byte)
    (hw : HwRead) (h : BUFFER_LENGTH < n) :
    requestFrom s address n sendStop hw = requestFrom s address 32 sendStop hw := by
  have h32 : ¬ (32 > BUFFER_LENGTH) := by simp [BUFFER_LENGTH]
  have hn : n > BUFFER_LENGTH := h
  simp only [requestFrom, if_pos hn, if_neg h32]
  rfl

/-- Witness of `C11_requestFrom_clamps`: a request for 200 bytes. -/
theorem C11_requestFrom_clamps_witness :
    requestFrom initial 0x50 200 1 sampleHw = requestFrom initial 0x50 32 1 sampleHw :=
  C11_requestFrom_clamps initial 0x50 200 1 sampleHw (by decide)

end TwoWire

namespace TWBRemulation

/-! ### C12: an unrecognised write is a no-op -/

/-- C12: for every core clock, every bus clock and every integer `val` that is none
of 12, `((F_CPU / 400000) - 16) / 2`, 72, `((F_CPU / 100000) - 16) / 2`, assigning
`val` to TWBR performs no register store: `I2C0_C1` and `I2C0_F` are both unchanged,
and a following read of TWBR returns what it returned before the assignment. -/
theorem C12_unrecognised_noop (k : Kinetis) (F_CPU : Int) (F_BUS : Nat) (val : Int) (r : Regs)
    (h12 : val ≠ 12) (hfast : val ≠ fastFormula F_CPU)
    (h72 : val ≠ 72) (hslow : val ≠ slowFormula F_CPU) :
    operator_assign_stores F_CPU F_BUS val = [] ∧
    (operator_assign k F_CPU F_BUS val r).I2C0_C1 = r.I2C0_C1 ∧
    (operator_assign k F_CPU F_BUS val r).I2C0_F = r.I2C0_F ∧
    operator_int k F_BUS (operator_assign k F_CPU F_BUS val r) = operator_int k F_BUS r := by
  have hfc : fastCond F_CPU val = false := by simp [fastCond, h12, hfast]
  have hsc : slowCond F_CPU val = false := by simp [slowCond, h72, hslow]
  have hst : operator_assign_stores F_CPU F_BUS val = [] := by
    simp [operator_assign_stores, hfc, hsc]
  have hr : operator_assign k F_CPU F_BUS val r = r := by
    simp [operator_assign, hst, execStores]
  exact ⟨hst, by rw [hr], by rw [hr], by rw [hr]⟩

/-- Witness of `C12_unrecognised_noop`: `TWBR = 50` at `F_CPU` = 96 MHz,
`F_BUS` = 48 MHz. -/
theorem C12_unrecognised_noop_witness :
    operator_assign_stores 96000000 48000000 50 = [] ∧
    (operator_assign sampleKinetis 96000000 48000000 50 ⟨0x80, 0x1A⟩).I2C0_C1 = 0x80 ∧
    (operator_assign sampleKinetis 96000000 48000000 50 ⟨0x80, 0x1A⟩).I2C0_F = 0x1A ∧
    operator_int sampleKinetis 48000000
        (operator_assign sampleKinetis 96000000 48000000 50 ⟨0x80, 0x1A⟩)
      = operator_int sampleKinetis 48000000 ⟨0x80, 0x1A⟩ :=
  C12_unrecognised_noop sampleKinetis 96000000 48000000 50 ⟨0x80, 0x1A⟩
    (by decide) (by decide) (by decide) (by decide)

/-! ### C13: the first branch has priority -/

theorem fastCond_iff (F_CPU val : Int) :
    fastCond F_CPU val = true ↔ (val = 12 ∨ val = fastFormula F_CPU) := by
  simp [fastCond]

theorem slowCond_iff (F_CPU val : Int) :
    slowCond F_CPU val = true ↔ (val = 72 ∨ val = slowFormula F_CPU) := by
  simp [slowCond]

/-- Apart from 2 MHz, the two branches name different constants. -/
theorem entries_ne (F_BUS nf ns : Nat) (h : F_BUS ∈ supportedBus) (h2 : F_BUS ≠ 2000000)
    (hf : fastDiv F_BUS = some nf) (hs : slowDiv F_BUS = some ns) : nf ≠ ns := by
  rw [mem_supportedBus] at h
  rcases h with h | h | h | h | h | h | h | h | h | h | h | h | h | h | h | h | h | h <;>
    subst h <;> simp [fastDiv, slowDiv] at hf hs <;> omega

theorem programmedDiv_branch (n : Nat) :
    programmedDiv ([Store.c1Zero] ++ fStore (some n) ++ [Store.c1Iicen]) = some n := by
  simp [fStore, programmedDiv]

/-- C13, as stated, fails: at `F_BUS` = 2 MHz both branches name `I2C_F_DIV20`, so
assigning 12 programs the entry of the 100 kHz class although 12 satisfies the first
condition and not the second. -/
theorem C13_priority_fails_at_2MHz :
    2000000 ∈ supportedBus ∧ slowDiv 2000000 = some 20 ∧
    programmedDiv (operator_assign_stores 48000000 2000000 12) = some 20 ∧
    ¬ (((12 : Int) = 72 ∨ (12 : Int) = slowFormula 48000000) ∧
        ¬ ((12 : Int) = 12 ∨ (12 : Int) = fastFormula 48000000)) := by
  decide

/-- C13, amended: for every core clock, supported bus clock and integer `val`, a
value with (`val = 72` or `val = ((F_CPU / 100000) - 16) / 2`) and not (`val = 12` or
`val = ((F_CPU / 400000) - 16) / 2`) is programmed as the 100 kHz-class entry; for
every supported bus clock other than 2 MHz these are the only values for which
`operator=` programs the 100 kHz-class entry; a value satisfying the first
condition, also one satisfying both, is programmed as the 400 kHz-class entry; and
a value satisfying both exists for `F_CPU` = 4 MHz, where the slow formula
evaluates to 12. -/
theorem C13_fast_priority (F_CPU : Int) (F_BUS : Nat) (val : Int) (h : F_BUS ∈ supportedBus) :
    ∃ nf ns, fastDiv F_BUS = some nf ∧ slowDiv F_BUS = some ns ∧
      (((val = 72 ∨ val = slowFormula F_CPU) ∧ ¬ (val = 12 ∨ val = fastFormula F_CPU)) →
        programmedDiv (operator_assign_stores F_CPU F_BUS val) = some ns) ∧
      (F_BUS ≠ 2000000 →
        (programmedDiv (operator_assign_stores F_CPU F_BUS val) = some ns ↔
          ((val = 72 ∨ val = slowFormula F_CPU) ∧ ¬ (val = 12 ∨ val = fastFormula F_CPU)))) ∧
      ((val = 12 ∨ val = fastFormula F_CPU) →
        programmedDiv (operator_assign_stores F_CPU F_BUS val) = some nf) ∧
      slowFormula 4000000 = 12 := by
  obtain ⟨nf, ns, hf, hs⟩ := supported_entries F_BUS h
  have hslowprog : ((val = 72 ∨ val = slowFormula F_CPU) ∧
      ¬ (val = 12 ∨ val = fastFormula F_CPU)) →
      programmedDiv (operator_assign_stores F_CPU F_BUS val) = some ns := by
    rintro ⟨hsl, hnf⟩
    have hfc : fastCond F_CPU val = false := by
      cases hc : fastCond F_CPU val with
      | false => rfl
      | true => exact absurd ((fastCond_iff F_CPU val).1 hc) hnf
    have hsc : slowCond F_CPU val = true := (slowCond_iff F_CPU val).2 hsl
    rw [stores_of_slowCond F_CPU F_BUS val hfc hsc, hs, programmedDiv_branch]
  have hfastprog : (val = 12 ∨ val = fastFormula F_CPU) →
      programmedDiv (operator_assign_stores F_CPU F_BUS val) = some nf := by
    intro hfa
    have hfc : fastCond F_CPU val = true := (fastCond_iff F_CPU val).2 hfa
    rw [stores_of_fastCond F_CPU F_BUS val hfc, hf, programmedDiv_branch]
  refine ⟨nf, ns, hf, hs, hslowprog, ?_, hfastprog, by decide⟩
  intro h2
  constructor
  · intro hp
    have hne : nf ≠ ns := entries_ne F_BUS nf ns h h2 hf hs
    by_cases hfa : val = 12 ∨ val = fastFormula F_CPU
    · have := hfastprog hfa
      rw [hp] at this
      exact absurd (Option.some.inj this).symm hne
    · refine ⟨?_, hfa⟩
      by_cases hsl : val = 72 ∨ val = slowFormula F_CPU
      · exact hsl
      · have hfc : fastCond F_CPU val = false := by
          cases hc : fastCond F_CPU val with
          | false => rfl
          | true => exact absurd ((fastCond_iff F_CPU val).1 hc) hfa
        have hsc : slowCond F_CPU val = false := by
          cases hc : slowCond F_CPU val with
          | false => rfl
          | true => exact absurd ((slowCond_iff F_CPU val).1 hc) hsl
        have hst : operator_assign_stores F_CPU F_BUS val = [] := by
          simp [operator_assign_stores, hfc, hsc]
        rw [hst] at hp
        simp [programmedDiv] at hp
  · exact hslowprog

/-- Witness of `C13_fast_priority` at `F_CPU` = 4 MHz, `F_BUS` = 4 MHz, `val` = 12, a
value that satisfies both conditions. -/
theorem C13_fast_priority_witness :
    ∃ nf ns, fastDiv 4000000 = some nf ∧ slowDiv 4000000 = some ns ∧
      ((((12 : Int) = 72 ∨ (12 : Int) = slowFormula 4000000) ∧
          ¬ ((12 : Int) = 12 ∨ (12 : Int) = fastFormula 4000000)) →
        programmedDiv (operator_assign_stores 4000000 4000000 12) = some ns) ∧
      (4000000 ≠ 2000000 →
        (programmedDiv (operator_assign_stores 4000000 4000000 12) = some ns ↔
          (((12 : Int) = 72 ∨ (12 : Int) = slowFormula 4000000) ∧
            ¬ ((12 : Int) = 12 ∨ (12 : Int) = fastFormula 4000000)))) ∧
      (((12 : Int) = 12 ∨ (12 : Int) = fastFormula 4000000) →
        programmedDiv (operator_assign_stores 4000000 4000000 12) = some nf) ∧
      slowFormula 4000000 = 12 :=
  C13_fast_priority 4000000 4000000 12 (by decide)

/-! ### C14: the speed figures in the comments -/

/-- Every entry of the write table other than the first-branch entry for 48 MHz has
a comment within 1 kHz of the exact speed `F_BUS / N`. -/
theorem comments_accurate_elsewhere (F_BUS : Nat) (h : F_BUS ∈ supportedBus) :
    ∃ nf ns cf cs, fastDiv F_BUS = some nf ∧ slowDiv F_BUS = some ns ∧
      fastComment F_BUS = some cf ∧ slowComment F_BUS = some cs ∧
      (F_BUS ≠ 48000000 → commentAccurate F_BUS nf cf) ∧
      commentAccurate F_BUS ns cs := by
  rw [mem_supportedBus] at h
  rcases h with h | h | h | h | h | h | h | h | h | h | h | h | h | h | h | h | h | h <;>
    subst h <;>
    refine ⟨_, _, _, _, rfl, rfl, rfl, rfl, ?_, ?_⟩ <;>
    norm_num [commentAccurate, busSpeed, abs_lt]

/-- C14 at its failing entry: in the first branch at `F_BUS` = 48 MHz the code stores
`I2C_F_DIV112`, whose exact speed is 48000000 / 112 = 3000000 / 7 Hz (428.57 kHz),
while the comment of that line says 400 kHz; the difference is not below 1 kHz (it
is more than 28 kHz). -/
theorem C14_comment_48MHz_fast_off :
    48000000 ∈ supportedBus ∧
    programmedDiv (operator_assign_stores 96000000 48000000 12) = some 112 ∧
    fastDiv 48000000 = some 112 ∧ fastComment 48000000 = some 400 ∧
    busSpeed 48000000 112 = 3000000 / 7 ∧
    ¬ commentAccurate 48000000 112 400 ∧
    28000 < |busSpeed 48000000 112 - (400 : ℚ) * 1000| := by
  refine ⟨by decide, by decide, by decide, by decide, ?_, ?_, ?_⟩
  · norm_num [busSpeed]
  · norm_num [commentAccurate, busSpeed, abs_lt]
  · norm_num [busSpeed, lt_abs]

/-! ### C15: the formula values in the comments -/

/-- C15: for `F_CPU` = 24, 48 and 96 MHz the expression `((F_CPU / 400000) - 16) / 2`
evaluates to 22, 52 and 112 and `((F_CPU / 100000) - 16) / 2` evaluates to 112, 232
and 472; for `F_CPU` = 16 MHz the two expressions evaluate to the constants 12 and
72. -/
theorem C15_formula_values :
    fastFormula 24000000 = 22 ∧ fastFormula 48000000 = 52 ∧ fastFormula 96000000 = 112 ∧
    slowFormula 24000000 = 112 ∧ slowFormula 48000000 = 232 ∧ slowFormula 96000000 = 472 ∧
    fastFormula 16000000 = 12 ∧ slowFormula 16000000 = 72 := by
  decide

end TWBRemulation

namespace TwoWire

/-! ### C16: the legacy `receive()` -/

theorem uint8_val (n : Int) : ((uint8 n).val : Int) = n % 256 := by
  simp only [uint8]
  omega

theorem uint8_add_256 (n : Int) : uint8 (n + 256) = uint8 n := by
  apply Fin.ext
  simp only [uint8]
  omega

/-- C16: for every `TwoWire` state and every `read`, `receive()` returns 0 when
`read()` returns a negative value and otherwise the value of `read()` reduced modulo
256, leaving the state `read()` left; its result is in 0..255; and with the modelled
`read` an exhausted buffer and a received byte 0 give the same result 0. -/
theorem C16_receive_hides_sentinel (rd : TwoWire → TwoWire × Int) (s : TwoWire) :
    ((rd s).2 < 0 → (receive rd s).2 = 0) ∧
    (0 ≤ (rd s).2 → (((receive rd s).2).val : Int) = (rd s).2 % 256) ∧
    ((receive rd s).2).val ≤ 255 ∧
    (receive rd s).1 = (rd s).1 ∧
    (read initial).2 = -1 ∧
    (read { initial with rxBufferLength := 1 }).2 = 0 ∧
    (receive read initial).2 = 0 ∧
    (receive read { initial with rxBufferLength := 1 }).2 = 0 := by
  refine ⟨?_, ?_, ?_, ?_, by decide, by decide, by decide, by decide⟩
  · intro h
    simp [receive, h]
  · intro h
    have h2 : ¬ ((rd s).2 < 0) := by omega
    simp only [receive, if_neg h2]
    exact uint8_val _
  · have := ((receive rd s).2).isLt
    omega
  · by_cases h : (rd s).2 < 0
    · simp [receive, h]
    · simp [receive, h]

/-- Witness of `C16_receive_hides_sentinel`: after a request that delivered the bytes
1, 2, 3 the first `receive()` returns 1. -/
theorem C16_receive_hides_sentinel_witness :
    (((receive read (requestFrom initial 0x50 3 1 sampleHw).1).2).val : Int)
      = (read (requestFrom initial 0x50 3 1 sampleHw).1).2 % 256 :=
  (C16_receive_hides_sentinel read (requestFrom initial 0x50 3 1 sampleHw).1).2.1
    (by decide)

/-! ### C17: the integer overloads of `write` -/

/-- C17: for every integer `n`, every state and every single-byte `write`, the
`unsigned long`, `long`, `unsigned int` and `int` overloads of `write` have the
effect and the result of `write` of the single byte `n mod 256`, and the legacy
`send(int n)` has its effect; hence `n` and `n + 256` are indistinguishable through
each of them. -/
theorem C17_integer_write_truncates (w : TwoWire → Byte → TwoWire × Nat) (s : TwoWire)
    (n : Int) :
    ((uint8 n).val : Int) = n % 256 ∧
    write_unsigned_long w s n = w s (uint8 n) ∧
    write_long w s n = w s (uint8 n) ∧
    write_unsigned_int w s n = w s (uint8 n) ∧
    write_int w s n = w s (uint8 n) ∧
    send_int w s n = (w s (uint8 n)).1 ∧
    write_unsigned_long w s (n + 256) = write_unsigned_long w s n ∧
    write_long w s (n + 256) = write_long w s n ∧
    write_unsigned_int w s (n + 256) = write_unsigned_int w s n ∧
    write_int w s (n + 256) = write_int w s n ∧
    send_int w s (n + 256) = send_int w s n := by
  refine ⟨uint8_val n, rfl, rfl, rfl, rfl, rfl, ?_, ?_, ?_, ?_, ?_⟩
  · simp only [write_unsigned_long, uint8_add_256]
  · simp only [write_long, uint8_add_256]
  · simp only [write_unsigned_int, uint8_add_256]
  · simp only [write_int, uint8_add_256]
  · simp only [send_int, uint8_add_256]

end TwoWire

end Wire
